import Mathlib

/-!
# Verification of the go-charts bar-chart renderer and coordinate box

Shallow embedding of the repository's two core source files:

* `draw.go` — the `Draw` coordinate box: construction (`NewDraw`), the
  parent-chain walk (`Top`), and the primitive passthroughs (`moveTo`,
  `lineTo`, `circle`, `text`, `lineStroke`, `setBackground`).
* the bar-chart renderer (`bar_chart.go`) — the `render` method of
  `barChart`: slot-width-derived margins, the bar-width formula, per-item
  rectangle and mark-point geometry, deferred label flushing, and overlay
  error propagation.

Go machine integers are modelled as `Int`; Go's integer `/` (truncation
toward zero) is `Int.tdiv`, and Go's arithmetic right shift `>> 1` on a
signed integer is floor division by two, `Int.fdiv · 2`.  External
collaborators (the chart renderer backend, the value scaler
`yRange.getHeight`, the label formatter, text measurement, the theme) are
abstracted as parameters; outcomes of the overlay painters' `Render`
(external code) are a parameter as well.
-/

/-- `chart.Box` — pixel bounds, in the field order used by the source
(`Top`, `Left`, `Right`, `Bottom`). -/
structure ChartBox where
  top : Int
  left : Int
  right : Int
  bottom : Int
deriving DecidableEq

/-- `BoxZero`, the zero `chart.Box`. -/
def BoxZero : ChartBox := ⟨0, 0, 0, 0⟩

/-- `Point` — a resolved pixel position. -/
structure GoPoint where
  x : Int
  y : Int
deriving DecidableEq

/-- `Draw` from `draw.go`: a renderer reference (modelled as an opaque
tag), the box bounds, and an optional parent.  The `Font` field is
irrelevant to the verified behaviour and omitted. -/
inductive Draw where
  | mk (render : Nat) (box : ChartBox) (parent : Option Draw)

/-- The `Render` field (renderer reference tag). -/
def Draw.render : Draw → Nat
  | .mk r _ _ => r

/-- The `Box` field. -/
def Draw.box : Draw → ChartBox
  | .mk _ b _ => b

/-- The `parent` field. -/
def Draw.parentRef : Draw → Option Draw
  | .mk _ _ p => p

/-- `DrawOption` from `draw.go`. -/
structure DrawOption where
  type : String
  parent : Option Draw
  width : Int
  height : Int

/-- The `for _, o := range opts { ... }` loop at the end of `NewDraw`:
apply each functional option in order, aborting on the first error. -/
def applyOptions : List (Draw → Except String Draw) → Draw → Except String Draw
  | [], d => .ok d
  | o :: rest, d =>
    match o d with
    | .error e => .error e
    | .ok d2 => applyOptions rest d2

/-- `NewDraw` from `draw.go`.  `mkRenderer` abstracts the external
`chart.SVG` / `chart.PNG` constructors (chosen by `opt.Type`, sized by the
box's right/bottom, may fail). -/
def NewDraw (mkRenderer : String → Int → Int → Except String Nat)
    (opt : DrawOption) (opts : List (Draw → Except String Draw)) :
    Except String Draw :=
  if opt.parent.isNone ∧ (opt.width ≤ 0 ∨ opt.height ≤ 0) then
    .error "parent and width/height can not be nil"
  else
    -- d := &Draw{Font: font}; if opt.Parent != nil { copy render, clone box }
    let d0 : Draw :=
      match opt.parent with
      | some par => Draw.mk par.render par.box (some par)
      | none => Draw.mk 0 BoxZero none
    -- if width != 0 && height != 0 { d.Box.Right = width + d.Box.Left; ... }
    let d1 : Draw :=
      if opt.width ≠ 0 ∧ opt.height ≠ 0 then
        Draw.mk d0.render
          { d0.box with
            right := opt.width + d0.box.left,
            bottom := opt.height + d0.box.top }
          d0.parentRef
      else d0
    -- if d.parent == nil { create the renderer }
    match d1.parentRef with
    | none =>
      match mkRenderer opt.type d1.box.right d1.box.bottom with
      | .error e => .error e
      | .ok r => applyOptions opts (Draw.mk r d1.box d1.parentRef)
    | some _ => applyOptions opts d1

/-!
## The parent-chain walk `Top`

`Top` follows pointers, and a pointer graph can be cyclic, so the chain is
modelled as a graph: nodes are `Nat` identifiers and `par : Nat → Option Nat`
gives each node's parent pointer.
-/

/-- The `for i := 50; i > 0; i--` loop body of `Top`: follow the parent
pointer while fuel remains, stopping early at a parentless node.  Returns
the final node together with the number of hops actually taken. -/
def topLoopSteps (par : Nat → Option Nat) : Nat → Nat → Nat × Nat
  | 0, t => (t, 0)
  | i + 1, t =>
    match par t with
    | none => (t, 0)
    | some p =>
      let r := topLoopSteps par i p
      (r.1, r.2 + 1)

/-- `Top` from `draw.go`: `nil` for a root; otherwise start from the
parent and walk at most 50 further hops. -/
def topOf (par : Nat → Option Nat) (d : Nat) : Option Nat :=
  match par d with
  | none => none
  | some t => some (topLoopSteps par 50 t).1

/-- An acyclic parent chain of depth 3: `0 → 1 → 2 → 3`, with `3` the root. -/
def chain3Par : Nat → Option Nat := fun n => if n < 3 then some (n + 1) else none

/-- A deliberately cyclic parent chain: `0 ↔ 1`. -/
def cyclicPar : Nat → Option Nat := fun n => if n = 0 then some 1 else some 0

/-!
## Primitive passthroughs

Each primitive is modelled by the list of calls it issues to the shared
surface renderer (`d.Render`).
-/

/-- A call to the external `chart.Renderer`.  The circle radius (a Go
`float64` passed through unchanged) is modelled as `Int`. -/
inductive RendererCall where
  | moveTo (x y : Int)
  | lineTo (x y : Int)
  | circle (radius : Int) (x y : Int)
  | text (body : String) (x y : Int)
  | writeStrokeOptions
  | writeFillStyle (color : Nat)
  | stroke
  | fillStroke
deriving DecidableEq

/-- `(d *Draw) moveTo`: translate by the box's left/top. -/
def Draw.moveTo (d : Draw) (x y : Int) : List RendererCall :=
  [.moveTo (x + d.box.left) (y + d.box.top)]

/-- `(d *Draw) lineTo`: translate by the box's left/top. -/
def Draw.lineTo (d : Draw) (x y : Int) : List RendererCall :=
  [.lineTo (x + d.box.left) (y + d.box.top)]

/-- `(d *Draw) circle`: translate the centre by the box's left/top. -/
def Draw.circle (d : Draw) (radius : Int) (x y : Int) : List RendererCall :=
  [.circle radius (x + d.box.left) (y + d.box.top)]

/-- `(d *Draw) text`: translate by the box's left/top. -/
def Draw.text (d : Draw) (body : String) (x y : Int) : List RendererCall :=
  [.text body (x + d.box.left) (y + d.box.top)]

/-- Modelled from the spec: the external `style.Style().ShouldDrawStroke()`
check — whether the line style specifies a visible stroke. -/
structure LineStyle where
  strokeVisible : Bool

/-- The `for index, point := range points` loop of `lineStroke`:
`moveTo` for the first point, `lineTo` for the rest. -/
def strokePath (d : Draw) : Nat → List GoPoint → List RendererCall
  | _, [] => []
  | i, pt :: rest =>
    (if i = 0 then d.moveTo pt.x pt.y else d.lineTo pt.x pt.y) ++
      strokePath d (i + 1) rest

/-- `(d *Draw) lineStroke`: no-op when the style draws no stroke;
otherwise write stroke options, trace the points, and stroke. -/
def Draw.lineStroke (d : Draw) (points : List GoPoint) (style : LineStyle) :
    List RendererCall :=
  if ¬ style.strokeVisible then []
  else .writeStrokeOptions :: (strokePath d 0 points ++ [.stroke])

/-- `(d *Draw) setBackground`: writes a fill style then traces the four
corners directly on `d.Render` (`r.MoveTo(0, 0)` etc.) and fills. -/
def Draw.setBackground (_d : Draw) (width height : Int) (color : Nat) :
    List RendererCall :=
  [.writeFillStyle color,
   .moveTo 0 0,
   .lineTo width 0,
   .lineTo width height,
   .lineTo 0 height,
   .lineTo 0 0,
   .fillStroke]

/-- Translate the coordinates of a renderer call by `(dx, dy)`. -/
def shiftCall (dx dy : Int) : RendererCall → RendererCall
  | .moveTo x y => .moveTo (x + dx) (y + dy)
  | .lineTo x y => .lineTo (x + dx) (y + dy)
  | .circle r x y => .circle r (x + dx) (y + dy)
  | .text s x y => .text s (x + dx) (y + dy)
  | c => c

/-- The same `Draw` with its box moved to the origin (offsets zeroed). -/
def Draw.atOrigin (d : Draw) : Draw :=
  Draw.mk d.render { d.box with left := 0, top := 0 } d.parentRef

/-!
## The bar-chart renderer

Embedding of `barChart.render`.  The axis-range divider (`NewRange` /
`GetRange` / `AutoDivide`), the value scaler (`yRange.getHeight`), the
label formatter, text measurement and the theme live outside the two
source files and are abstracted as parameters collected in `RenderEnv`.
-/

/-- A `drawing.Color` as used by the source: the only observations made
are `IsZero()` and identity, so it is modelled as a zero flag plus a tag. -/
structure GoColor where
  isZero : Bool
  id : Nat
deriving DecidableEq

/-- One data item of a series: `item.Value` (only ever passed to the
abstract scaler and formatter, so `Int` suffices for the Go `float64`)
and `item.Style.FillColor`. -/
structure ChartItem where
  value : Int
  fillColor : GoColor
deriving DecidableEq

/-- `series.Label`: show flag, distance above the bar, label color. -/
structure GoLabel where
  labelShow : Bool
  distance : Int
  color : GoColor
deriving DecidableEq

/-- One series: its data, the selected y-axis, label configuration, and
the global `series.index` used for the theme color. -/
structure GoSeries where
  data : List ChartItem
  axisIndex : Nat
  label : GoLabel
  index : Nat
deriving DecidableEq

/-- `barChartLabelRenderOption`: a deferred label draw (text, style
reduced to its font color, position). -/
structure BarLabelOption where
  text : String
  fontColor : GoColor
  x : Int
  y : Int
deriving DecidableEq

/-- A drawing call issued on the series painter during `render`. -/
inductive DrawEvent where
  | overrideDrawingStyle (fillColor : GoColor)
  | rect (box : ChartBox)
  | overrideTextStyle (fontColor : GoColor)
  | text (body : String) (x y : Int)
deriving DecidableEq

/-- A Go runtime panic reachable in `render`. -/
inductive GoPanic where
  | divideByZero
deriving DecidableEq

/-- The observable outcome of `render`: the returned `(Box, error)` pair
plus the trace of series-painter draw calls and the per-series `Points`
slices handed to the mark-point overlay. -/
structure RenderOutput where
  box : ChartBox
  err : Option String
  events : List DrawEvent
  markPoints : List (List GoPoint)
deriving DecidableEq

/-- Everything `render` consumes besides the series list.  `divideCount`
and `divideValues` come from the axis-range divider, `width` is the pixel
span of division 0 (`int(x1 - x0)`), `barMaxHeight` the painter height.
`getHeight` abstracts `int(yRange.getHeight(value))` per axis index;
`formatText` abstracts the label formatter applied at a series position
and value; `measureWidth` abstracts `MeasureText(...).Width()`;
`getSeriesColor` and `textColor` abstract the theme.  `overlayErr` is the
(spec-modelled) outcome of the external overlay painters' `Render`:
`doRender` returns the first error or nil. -/
structure RenderEnv where
  divideCount : Nat
  divideValues : Nat → Int
  width : Int
  barMaxHeight : Int
  getHeight : Nat → Int → Int
  formatText : Nat → Int → String
  measureWidth : String → Int
  getSeriesColor : Nat → GoColor
  textColor : GoColor
  overlayErr : Option String
  pbox : ChartBox

/-- The `margin` between a category slot's edge and its bars, derived
from the slot width: `margin := 10`, overridden to `2` when `width < 20`
and to `5` when `width < 50`. -/
def marginOf (width : Int) : Int :=
  if width < 20 then 2 else if width < 50 then 5 else 10

/-- The `barMargin` between adjacent bars, derived from the slot width:
`barMargin := 5`, overridden to `2` when `width < 20` and to `3` when
`width < 50`. -/
def barMarginOf (width : Int) : Int :=
  if width < 20 then 2 else if width < 50 then 3 else 5

/-- `barWidth := (width - 2*margin - barMargin*(seriesCount-1)) / len(seriesList)`
— Go integer division truncates toward zero. -/
def barWidthOf (width : Int) (seriesCount : Nat) : Int :=
  Int.tdiv (width - 2 * marginOf width - barMarginOf width * ((seriesCount : Int) - 1))
    (seriesCount : Int)

/-- The bar-width formula read off the spec's words: the same numerator
*floor*-divided by the series count.  Kept separate from `barWidthOf`
(the source's truncating division) for comparison. -/
def barWidthFloorSpec (width : Int) (seriesCount : Nat) : Int :=
  Int.fdiv (width - 2 * marginOf width - barMarginOf width * ((seriesCount : Int) - 1))
    (seriesCount : Int)

/-- The bar's left edge for series position `index` and category `j`:
`x := divideValues[j] + margin`, then `x += index*(barWidth+barMargin)`
when `index != 0`. -/
def barXPos (env : RenderEnv) (margin barWidth barMargin : Int) (index j : Nat) : Int :=
  let x := env.divideValues j + margin
  if index ≠ 0 then x + (index : Int) * (barWidth + barMargin) else x

/-- The rectangle drawn for one bar:
`{Top: barMaxHeight - h, Left: x, Right: x + barWidth, Bottom: barMaxHeight - 1}`. -/
def barRect (env : RenderEnv) (x barWidth h : Int) : ChartBox :=
  { top := env.barMaxHeight - h, left := x, right := x + barWidth,
    bottom := env.barMaxHeight - 1 }

/-- The mark-point recorded for one bar: `{X: x + barWidth>>1, Y: top}`
(Go's arithmetic right shift on a signed int is floor division by 2). -/
def barPoint (x barWidth top : Int) : GoPoint :=
  { x := x + Int.fdiv barWidth 2, y := top }

/-- The deferred label option built for one bar when `series.Label.Show`:
default distance 5, formatted text, horizontally centred over the bar
(`x + (barWidth - textWidth)>>1`), `distance` above the bar top. -/
def labelOf (env : RenderEnv) (index : Nat) (s : GoSeries) (x barWidth h value : Int) :
    BarLabelOption :=
  let distance := if s.label.distance = 0 then 5 else s.label.distance
  let text := env.formatText index value
  let textWidth := env.measureWidth text
  let fontColor := if ¬ s.label.color.isZero then s.label.color else env.textColor
  { text := text, fontColor := fontColor,
    x := x + Int.fdiv (barWidth - textWidth) 2,
    y := env.barMaxHeight - h - distance }

/-- The `for j, item := range series.Data` loop: items at `j >=
divideCount` are skipped; otherwise the style and rectangle calls are
issued, `points[j]` is set to the bar's mark point, and a deferred label
option is queued when labels are shown.  Returns the final `points`
slice, the draw calls, and the queued label options. -/
def itemLoop (env : RenderEnv) (margin barWidth barMargin : Int) (index : Nat)
    (s : GoSeries) : Nat → List ChartItem → List GoPoint →
    List GoPoint × List DrawEvent × List BarLabelOption
  | _, [], points => (points, [], [])
  | j, item :: rest, points =>
    if env.divideCount ≤ j then
      itemLoop env margin barWidth barMargin index s (j + 1) rest points
    else
      let x := barXPos env margin barWidth barMargin index j
      let h := env.getHeight s.axisIndex item.value
      let fc := if ¬ item.fillColor.isZero then item.fillColor
                else env.getSeriesColor s.index
      let top := env.barMaxHeight - h
      let points2 := points.set j (barPoint x barWidth top)
      let labelsHere :=
        if ¬ s.label.labelShow then []
        else [labelOf env index s x barWidth h item.value]
      let r := itemLoop env margin barWidth barMargin index s (j + 1) rest points2
      (r.1,
       .overrideDrawingStyle fc :: .rect (barRect env x barWidth h) :: r.2.1,
       labelsHere ++ r.2.2)

/-- The `for index := range seriesList` loop: each series starts from a
zeroed `points` slice of its data length, contributes its draw calls and
label options, and registers its final `points` with the mark-point
overlay (in series order). -/
def seriesLoop (env : RenderEnv) (margin barWidth barMargin : Int) :
    Nat → List GoSeries →
    List DrawEvent × List BarLabelOption × List (List GoPoint)
  | _, [] => ([], [], [])
  | index, s :: rest =>
    let init : List GoPoint := List.replicate s.data.length { x := 0, y := 0 }
    let r := itemLoop env margin barWidth barMargin index s 0 s.data init
    let rec2 := seriesLoop env margin barWidth barMargin (index + 1) rest
    (r.2.1 ++ rec2.1, r.2.2 ++ rec2.2.1, r.1 :: rec2.2.2)

/-- `barChart.render`: with an empty series list the bar-width division
panics (integer divide by zero); otherwise margins and bar width are
derived, all series are drawn, the deferred labels are flushed after all
rectangles, and the overlay painters run — an overlay error is returned
unchanged together with `BoxZero`, success returns `p.box`. -/
def render (env : RenderEnv) (seriesList : List GoSeries) :
    Except GoPanic RenderOutput :=
  if seriesList.length = 0 then .error .divideByZero
  else
    let margin := marginOf env.width
    let barMargin := barMarginOf env.width
    let barWidth := barWidthOf env.width seriesList.length
    let r := seriesLoop env margin barWidth barMargin 0 seriesList
    let labelEvents :=
      (r.2.1.map (fun o => [DrawEvent.overrideTextStyle o.fontColor,
                            DrawEvent.text o.text o.x o.y])).flatten
    let events := r.1 ++ labelEvents
    match env.overlayErr with
    | some e => .ok { box := BoxZero, err := some e, events := events,
                      markPoints := r.2.2 }
    | none => .ok { box := env.pbox, err := none, events := events,
                    markPoints := r.2.2 }

/-- Project the successful result out of a `render` outcome. -/
def getOk : Except GoPanic RenderOutput → RenderOutput
  | .ok o => o
  | .error _ => { box := BoxZero, err := none, events := [], markPoints := [] }

/-!
## Concrete fixtures used by witnesses and counterexamples
-/

/-- A concrete parent box used as a witness fixture. -/
def wPar : Draw := Draw.mk 7 ⟨2, 1, 50, 60⟩ none

/-- A concrete renderer initializer that always succeeds. -/
def wRendererInit : String → Int → Int → Except String Nat := fun _ _ _ => .ok 0

/-- A concrete `Draw` with non-zero offsets (left 3, top 4). -/
def cexDraw : Draw := Draw.mk 0 ⟨4, 3, 100, 100⟩ none

/-- A concrete render environment (no overlay error). -/
def wEnv : RenderEnv where
  divideCount := 1
  divideValues := fun _ => 0
  width := 100
  barMaxHeight := 100
  getHeight := fun _ _ => 30
  formatText := fun _ _ => "v"
  measureWidth := fun _ => 0
  getSeriesColor := fun _ => ⟨false, 1⟩
  textColor := ⟨false, 2⟩
  overlayErr := none
  pbox := ⟨0, 0, 300, 200⟩

/-- A concrete one-item series with labels shown. -/
def wSeries : GoSeries where
  data := [⟨10, ⟨true, 0⟩⟩]
  axisIndex := 0
  label := ⟨true, 0, ⟨true, 0⟩⟩
  index := 0

/-- A concrete one-series list. -/
def wSl : List GoSeries := [wSeries]

/-- A concrete series whose data (2 items) is longer than `wEnv`'s
category count (1). -/
def wSeries2 : GoSeries where
  data := [⟨10, ⟨true, 0⟩⟩, ⟨20, ⟨true, 0⟩⟩]
  axisIndex := 0
  label := ⟨false, 0, ⟨true, 0⟩⟩
  index := 0

/-- A concrete list holding the over-long series. -/
def wSl2 : List GoSeries := [wSeries2]

/-!
## Claims about `Top` (C6, C10)
-/

/-- The bounded walk consumes at most its fuel: at most `i` parent hops. -/
theorem topLoopSteps_le (par : Nat → Option Nat) :
    ∀ (i t : Nat), (topLoopSteps par i t).2 ≤ i := by
  intro i
  induction i with
  | zero => intro t; simp [topLoopSteps]
  | succ n ih =>
    intro t
    simp only [topLoopSteps]
    cases par t with
    | none => simp
    | some p => simpa using ih p

/-- At a parentless node the bounded walk stays put, whatever fuel
remains. -/
theorem topLoopSteps_parent_none (par : Nat → Option Nat) (t : Nat)
    (h : par t = none) : ∀ i, (topLoopSteps par i t).1 = t := by
  intro i
  cases i with
  | zero => rfl
  | succ n => simp [topLoopSteps, h]

/-- One hop of the bounded walk: with fuel left and a parent present,
the final node is the one reached from the parent with one less fuel. -/
theorem topLoopSteps_fst_step (par : Nat → Option Nat) (t p : Nat)
    (h : par t = some p) (i : Nat) :
    (topLoopSteps par (i + 1) t).1 = (topLoopSteps par i p).1 := by
  simp [topLoopSteps, h]

/-- C6: `Top` walks the parent chain to the top, bounded to at most 50
hops: on every acyclic parent chain of depth 3 (`a → b → c → r` with `r`
parentless) it returns the true root `r`; on the cyclic chain `0 ↔ 1` it
still terminates and returns a node within the cap; and the walk never
takes more than 50 hops on any chain. -/
theorem topOf_depth3_and_cycle_cap :
    (∀ (par : Nat → Option Nat) (a b c r : Nat),
      par a = some b → par b = some c → par c = some r → par r = none →
      topOf par a = some r) ∧
    topOf cyclicPar 0 = some 1 ∧
    ∀ (par : Nat → Option Nat) (t : Nat), (topLoopSteps par 50 t).2 ≤ 50 := by
  refine ⟨?_, by decide, fun par t => topLoopSteps_le par 50 t⟩
  intro par a b c r hab hbc hcr hr
  have s1 : (topLoopSteps par 50 b).1 = (topLoopSteps par 49 c).1 :=
    topLoopSteps_fst_step par b c hbc 49
  have s2 : (topLoopSteps par 49 c).1 = (topLoopSteps par 48 r).1 :=
    topLoopSteps_fst_step par c r hcr 48
  have s3 : (topLoopSteps par 48 r).1 = r := topLoopSteps_parent_none par r hr 48
  unfold topOf
  rw [hab]
  show some (topLoopSteps par 50 b).1 = some r
  rw [s1, s2, s3]

/-- Witness for C6: the depth-3 conjunct applied at the concrete chain
`0 → 1 → 2 → 3`, whose true root is `3`. -/
theorem topOf_depth3_and_cycle_cap_w :
    chain3Par 0 = some 1 ∧ chain3Par 1 = some 2 ∧ chain3Par 2 = some 3 ∧
    chain3Par 3 = none ∧ topOf chain3Par 0 = some 3 :=
  ⟨by decide, by decide, by decide, by decide,
    topOf_depth3_and_cycle_cap.1 chain3Par 0 1 2 3 (by decide) (by decide)
      (by decide) (by decide)⟩

/-- C10: on a root box (`parent == nil`), `Top` returns `nil`, not the
box itself. -/
theorem topOf_root_returns_none (par : Nat → Option Nat) (d : Nat)
    (h : par d = none) : topOf par d = none := by
  simp [topOf, h]

/-- Witness for C10 at the one-node graph with no parents. -/
theorem topOf_root_returns_none_w :
    (fun _ : Nat => (none : Option Nat)) 0 = none ∧
      topOf (fun _ : Nat => (none : Option Nat)) 0 = none :=
  ⟨rfl, topOf_root_returns_none (fun _ => none) 0 rfl⟩

/-!
## Claims about `NewDraw` (C5, C9)
-/

/-- C5: a box created from a parent with non-zero width `W` and height
`H` has bounds `[parent.left, parent.top, parent.left+W, parent.top+H]`
and shares the parent's renderer reference. -/
theorem newDraw_child_bounds (f : String → Int → Int → Except String Nat)
    (t : String) (par : Draw) (W H : Int) (hW : W ≠ 0) (hH : H ≠ 0) :
    NewDraw f { type := t, parent := some par, width := W, height := H } [] =
      Except.ok (Draw.mk par.render
        { top := par.box.top, left := par.box.left,
          right := par.box.left + W, bottom := par.box.top + H }
        (some par)) := by
  simp only [NewDraw, Draw.parentRef, Draw.render, Draw.box]
  rw [if_neg (by simp)]
  rw [if_pos ⟨hW, hH⟩]
  simp [applyOptions, Draw.parentRef, Draw.render, Draw.box]
  constructor <;> ring

/-- Witness for C5 at a concrete parent, `W = 30`, `H = 40`. -/
theorem newDraw_child_bounds_w :
    (30 : Int) ≠ 0 ∧ (40 : Int) ≠ 0 ∧
    NewDraw wRendererInit
        { type := "svg", parent := some wPar, width := 30, height := 40 } [] =
      Except.ok (Draw.mk wPar.render
        { top := wPar.box.top, left := wPar.box.left,
          right := wPar.box.left + 30, bottom := wPar.box.top + 40 }
        (some wPar)) :=
  ⟨by decide, by decide,
    newDraw_child_bounds wRendererInit "svg" wPar 30 40 (by decide) (by decide)⟩

/-- C9: when a box is created from a parent and either the width or the
height option is zero, the bounds are not overwritten: the new box is
exactly a clone of the parent's box. -/
theorem newDraw_child_clone_when_zero (f : String → Int → Int → Except String Nat)
    (t : String) (par : Draw) (W H : Int) (h : W = 0 ∨ H = 0) :
    NewDraw f { type := t, parent := some par, width := W, height := H } [] =
      Except.ok (Draw.mk par.render par.box (some par)) := by
  simp only [NewDraw, Draw.parentRef, Draw.render, Draw.box]
  rw [if_neg (by simp)]
  rw [if_neg (by tauto)]
  simp [applyOptions, Draw.parentRef]

/-- Witness for C9 at a concrete parent, `W = 0`, `H = 40`. -/
theorem newDraw_child_clone_when_zero_w :
    ((0 : Int) = 0 ∨ (40 : Int) = 0) ∧
    NewDraw wRendererInit
        { type := "svg", parent := some wPar, width := 0, height := 40 } [] =
      Except.ok (Draw.mk wPar.render wPar.box (some wPar)) :=
  ⟨Or.inl rfl,
    newDraw_child_clone_when_zero wRendererInit "svg" wPar 0 40 (Or.inl rfl)⟩

/-!
## Claim about the primitive passthroughs (C4)

The claim that all six primitives translate by `(left, top)` is false:
`setBackground` traces its rectangle directly on the renderer at
untranslated coordinates.  The five others do translate.
-/

/-- Counterexample for C4: on a box with offsets `(left, top) = (3, 4)`,
`setBackground` does not issue the translated calls — it draws at
absolute coordinates, so the claimed translation property fails. -/
theorem setBackground_not_translated :
    ¬ (cexDraw.setBackground 10 20 7 =
        (cexDraw.atOrigin.setBackground 10 20 7).map
          (shiftCall cexDraw.box.left cexDraw.box.top)) := by
  decide

/-- The point trace of `lineStroke` commutes with moving the box to the
origin and shifting the emitted calls. -/
theorem strokePath_shift (d : Draw) :
    ∀ (i : Nat) (pts : List GoPoint),
      strokePath d i pts =
        (strokePath d.atOrigin i pts).map (shiftCall d.box.left d.box.top) := by
  intro i pts
  induction pts generalizing i with
  | nil => simp [strokePath]
  | cons pt rest ih =>
    simp only [strokePath, List.map_append, ← ih]
    by_cases hi : i = 0 <;>
      simp [hi, Draw.moveTo, Draw.lineTo, Draw.atOrigin, Draw.box, shiftCall]

/-- C4 (amended): `moveTo`, `lineTo`, `circle`, `text` and `lineStroke`
translate their local coordinates by the box's `(left, top)` before
calling the surface renderer; `setBackground` does not — its calls are
identical whatever the box's offsets. -/
theorem primitives_translate_fillBackground_absolute :
    (∀ (d : Draw) (x y : Int),
      d.moveTo x y = (d.atOrigin.moveTo x y).map (shiftCall d.box.left d.box.top)) ∧
    (∀ (d : Draw) (x y : Int),
      d.lineTo x y = (d.atOrigin.lineTo x y).map (shiftCall d.box.left d.box.top)) ∧
    (∀ (d : Draw) (r x y : Int),
      d.circle r x y = (d.atOrigin.circle r x y).map (shiftCall d.box.left d.box.top)) ∧
    (∀ (d : Draw) (s : String) (x y : Int),
      d.text s x y = (d.atOrigin.text s x y).map (shiftCall d.box.left d.box.top)) ∧
    (∀ (d : Draw) (pts : List GoPoint) (st : LineStyle),
      d.lineStroke pts st =
        (d.atOrigin.lineStroke pts st).map (shiftCall d.box.left d.box.top)) ∧
    (∀ (d : Draw) (w h : Int) (c : Nat),
      d.setBackground w h c = d.atOrigin.setBackground w h c) := by
  refine ⟨?_, ?_, ?_, ?_, ?_, ?_⟩
  · intro d x y; simp [Draw.moveTo, Draw.atOrigin, Draw.box, shiftCall]
  · intro d x y; simp [Draw.lineTo, Draw.atOrigin, Draw.box, shiftCall]
  · intro d r x y; simp [Draw.circle, Draw.atOrigin, Draw.box, shiftCall]
  · intro d s x y; simp [Draw.text, Draw.atOrigin, Draw.box, shiftCall]
  · intro d pts st
    by_cases hst : st.strokeVisible
    · simp only [Draw.lineStroke, hst, not_true_eq_false, if_false]
      rw [strokePath_shift d 0 pts]
      simp [shiftCall, List.map_append]
    · simp [Draw.lineStroke, hst]
  · intro d w h c; rfl

/-!
## The bar-width formula and packing inequality (C1)
-/

/-- Counterexample for C1: the source divides with Go's truncating
division, not floor division.  At slot width `10` (so `margin = 2`,
`barMargin = 2`) and `5` series the numerator is `-2`: the code yields
`0` while the floor-division reading yields `-1`. -/
theorem barWidth_not_floor_div : barWidthOf 10 5 ≠ barWidthFloorSpec 10 5 := by
  decide

/-- C1 (amended): `barWidth` is the *truncating* (toward-zero) division
of `width − 2·margin − barMargin·(n−1)` by `n`, which agrees with the
claimed floor division whenever the numerator is non-negative; and
whenever `barWidth > 0`, the packing inequality
`barWidth·n + barMargin·(n−1) + 2·margin ≤ width` holds. -/
theorem barWidth_trunc_and_packing (w : Int) (n : Nat) (hn : 1 ≤ n) :
    (0 ≤ w - 2 * marginOf w - barMarginOf w * ((n : Int) - 1) →
      barWidthOf w n = barWidthFloorSpec w n) ∧
    (0 < barWidthOf w n →
      barWidthOf w n * (n : Int) + barMarginOf w * ((n : Int) - 1) +
        2 * marginOf w ≤ w) := by
  have hk : (0 : Int) < (n : Int) := by exact_mod_cast hn
  unfold barWidthOf barWidthFloorSpec
  set num := w - 2 * marginOf w - barMarginOf w * ((n : Int) - 1) with hnum
  constructor
  · intro hnn
    exact (Int.fdiv_eq_tdiv hnn hk.le).symm
  · intro hpos
    have hnn : 0 ≤ num := by
      by_contra hneg
      push_neg at hneg
      have h1 : Int.tdiv (-num) (n : Int) = -Int.tdiv num (n : Int) :=
        Int.neg_tdiv num (n : Int)
      have h2 : 0 ≤ Int.tdiv (-num) (n : Int) :=
        Int.tdiv_nonneg (by linarith) hk.le
      linarith
    have heq : Int.tdiv num (n : Int) = num / (n : Int) :=
      Int.tdiv_eq_ediv hnn hk.le
    have hdm : (n : Int) * (num / (n : Int)) + num % (n : Int) = num :=
      Int.ediv_add_emod num (n : Int)
    have hmod : 0 ≤ num % (n : Int) := Int.emod_nonneg num (ne_of_gt hk)
    have hmul : Int.tdiv num (n : Int) * (n : Int) ≤ num := by
      rw [heq]; nlinarith [hdm, hmod]
    linarith

/-- Witness for C1 at slot width `100` and `2` series (`margin = 10`,
`barMargin = 5`, `barWidth = 37 > 0`). -/
theorem barWidth_trunc_and_packing_w :
    (0 ≤ (100 : Int) - 2 * marginOf 100 - barMarginOf 100 * (((2 : Nat) : Int) - 1) →
      barWidthOf 100 2 = barWidthFloorSpec 100 2) ∧
    (0 < barWidthOf 100 2 →
      barWidthOf 100 2 * ((2 : Nat) : Int) +
        barMarginOf 100 * (((2 : Nat) : Int) - 1) + 2 * marginOf 100 ≤ 100) :=
  barWidth_trunc_and_packing 100 2 (by decide)

/-!
## Structural lemmas about the render loops
-/

/-- A successful `render` returns exactly the rectangle-phase draw calls
followed by the flushed label draw calls, and the per-series mark-point
slices produced by the series loop. -/
theorem render_ok_fields (env : RenderEnv) (sl : List GoSeries)
    (out : RenderOutput) (hr : render env sl = Except.ok out) :
    out.events =
      (seriesLoop env (marginOf env.width) (barWidthOf env.width sl.length)
        (barMarginOf env.width) 0 sl).1 ++
      ((seriesLoop env (marginOf env.width) (barWidthOf env.width sl.length)
          (barMarginOf env.width) 0 sl).2.1.map
        (fun o => [DrawEvent.overrideTextStyle o.fontColor,
                   DrawEvent.text o.text o.x o.y])).flatten ∧
    out.markPoints =
      (seriesLoop env (marginOf env.width) (barWidthOf env.width sl.length)
        (barMarginOf env.width) 0 sl).2.2 := by
  have hlen : ¬ sl.length = 0 := by
    intro h0
    unfold render at hr
    rw [if_pos h0] at hr
    exact Except.noConfusion hr
  have hout : out = getOk (render env sl) := by rw [hr]; rfl
  rw [hout]
  unfold render getOk
  rw [if_neg hlen]
  rcases env.overlayErr with _ | e <;> exact ⟨rfl, rfl⟩

/-- The item loop never changes the length of the points slice. -/
theorem itemLoop_length (env : RenderEnv) (mg bw bmg : Int) (idx : Nat)
    (s : GoSeries) :
    ∀ (items : List ChartItem) (j : Nat) (pts : List GoPoint),
      (itemLoop env mg bw bmg idx s j items pts).1.length = pts.length := by
  intro items
  induction items with
  | nil => intro j pts; simp [itemLoop]
  | cons it rest ih =>
    intro j pts
    by_cases hj : env.divideCount ≤ j
    · simp [itemLoop, hj, ih]
    · simp [itemLoop, hj, ih]

/-- The item loop leaves untouched every points entry below the current
index or at or beyond the category count. -/
theorem itemLoop_stable (env : RenderEnv) (mg bw bmg : Int) (idx : Nat)
    (s : GoSeries) :
    ∀ (items : List ChartItem) (j : Nat) (pts : List GoPoint) (k : Nat),
      (k < j ∨ env.divideCount ≤ k) →
      (itemLoop env mg bw bmg idx s j items pts).1[k]? = pts[k]? := by
  intro items
  induction items with
  | nil => intro j pts k hk; simp [itemLoop]
  | cons it rest ih =>
    intro j pts k hk
    by_cases hj : env.divideCount ≤ j
    · simp only [itemLoop, if_pos hj]
      exact ih (j + 1) pts k (by omega)
    · simp only [itemLoop, if_neg hj]
      rw [ih (j + 1) _ k (by omega)]
      exact List.getElem?_set_ne (by omega)

/-- The points entry written for a drawn item: starting the loop at
index `j`, the item at offset `m` (category index `j + m`, inside the
category count) ends as its bar's mark point. -/
theorem itemLoop_get (env : RenderEnv) (mg bw bmg : Int) (idx : Nat)
    (s : GoSeries) :
    ∀ (items : List ChartItem) (j : Nat) (pts : List GoPoint) (m : Nat)
      (item : ChartItem),
      pts.length = j + items.length → items[m]? = some item →
      j + m < env.divideCount →
      (itemLoop env mg bw bmg idx s j items pts).1[j + m]? =
        some (barPoint (barXPos env mg bw bmg idx (j + m)) bw
          (env.barMaxHeight - env.getHeight s.axisIndex item.value)) := by
  intro items
  induction items with
  | nil => intro j pts m item hlen hm hdc; simp at hm
  | cons it rest ih =>
    intro j pts m item hlen hm hdc
    have hj : ¬ env.divideCount ≤ j := by omega
    simp only [itemLoop, if_neg hj]
    cases m with
    | zero =>
      have hit : it = item := by simpa using hm
      subst hit
      simp only [Nat.add_zero] at hdc ⊢
      rw [itemLoop_stable env mg bw bmg idx s rest (j + 1) _ j (Or.inl (by omega))]
      have hjlen : j < pts.length := by
        simp only [List.length_cons] at hlen; omega
      rw [List.getElem?_set_self hjlen]
    | succ m2 =>
      have hrest : rest[m2]? = some item := by simpa using hm
      have harr : j + (m2 + 1) = (j + 1) + m2 := by omega
      rw [harr]
      refine ih (j + 1) _ m2 item ?_ hrest (by omega)
      simp only [List.length_set, List.length_cons] at hlen ⊢
      omega

/-- The series loop registers, for the series at position `i`, exactly
the points slice its item loop produced from a zeroed slice. -/
theorem seriesLoop_markPoints (env : RenderEnv) (mg bw bmg : Int) :
    ∀ (list : List GoSeries) (start i : Nat) (s : GoSeries),
      list[i]? = some s →
      (seriesLoop env mg bw bmg start list).2.2[i]? =
        some (itemLoop env mg bw bmg (start + i) s 0 s.data
          (List.replicate s.data.length { x := 0, y := 0 })).1 := by
  intro list
  induction list with
  | nil => intro start i s hs; simp at hs
  | cons s0 rest ih =>
    intro start i s hs
    cases i with
    | zero =>
      have h0 : s0 = s := by simpa using hs
      subst h0
      simp [seriesLoop]
    | succ i2 =>
      have hrest : rest[i2]? = some s := by simpa using hs
      have harr : start + (i2 + 1) = (start + 1) + i2 := by omega
      rw [harr]
      simp only [seriesLoop]
      rw [List.getElem?_cons_succ]
      exact ih (start + 1) i2 s hrest

/-- The rectangle phase of the item loop issues no text draw call. -/
theorem itemLoop_no_text (env : RenderEnv) (mg bw bmg : Int) (idx : Nat)
    (s : GoSeries) :
    ∀ (items : List ChartItem) (j : Nat) (pts : List GoPoint)
      (str : String) (x y : Int),
      DrawEvent.text str x y ∉ (itemLoop env mg bw bmg idx s j items pts).2.1 := by
  intro items
  induction items with
  | nil => intro j pts str x y; simp [itemLoop]
  | cons it rest ih =>
    intro j pts str x y
    by_cases hj : env.divideCount ≤ j
    · simp only [itemLoop, if_pos hj]
      exact ih (j + 1) pts str x y
    · simp only [itemLoop, if_neg hj, List.mem_cons, not_or]
      exact ⟨by simp, by simp, ih (j + 1) _ str x y⟩

/-- The rectangle phase of the whole series loop issues no text draw
call. -/
theorem seriesLoop_no_text (env : RenderEnv) (mg bw bmg : Int) :
    ∀ (list : List GoSeries) (start : Nat) (str : String) (x y : Int),
      DrawEvent.text str x y ∉ (seriesLoop env mg bw bmg start list).1 := by
  intro list
  induction list with
  | nil => intro start str x y; simp [seriesLoop]
  | cons s0 rest ih =>
    intro start str x y
    simp only [seriesLoop, List.mem_append, not_or]
    exact ⟨itemLoop_no_text env mg bw bmg start s0 s0.data 0 _ str x y,
      ih (start + 1) str x y⟩

/-- The label flush issues no rectangle draw call. -/
theorem labelFlush_no_rect :
    ∀ (opts : List BarLabelOption) (b : ChartBox),
      DrawEvent.rect b ∉
        (opts.map (fun o => [DrawEvent.overrideTextStyle o.fontColor,
                             DrawEvent.text o.text o.x o.y])).flatten := by
  intro opts b
  induction opts with
  | nil => simp
  | cons o rest ih => simp [ih]

/-- In a list split as rectangles-then-labels, every rectangle draw call
comes strictly before every text draw call. -/
theorem append_rect_before_text (R L : List DrawEvent)
    (hR : ∀ (str : String) (x y : Int), DrawEvent.text str x y ∉ R)
    (hL : ∀ (b : ChartBox), DrawEvent.rect b ∉ L)
    (i j : Nat) (b : ChartBox) (str : String) (x y : Int)
    (hi : (R ++ L)[i]? = some (DrawEvent.rect b))
    (hj : (R ++ L)[j]? = some (DrawEvent.text str x y)) : i < j := by
  have hmem : ∀ (T : List DrawEvent) (k : Nat) (e : DrawEvent),
      T[k]? = some e → e ∈ T := by
    intro T k e hk
    obtain ⟨hk2, he⟩ := List.getElem?_eq_some_iff.mp hk
    exact he ▸ List.getElem_mem hk2
  by_cases hiR : i < R.length
  · by_cases hjR : j < R.length
    · exfalso
      rw [List.getElem?_append, if_pos hjR] at hj
      exact hR str x y (hmem R j _ hj)
    · omega
  · exfalso
    rw [List.getElem?_append, if_neg hiR] at hi
    exact hL b (hmem L _ _ hi)

/-!
## Claims about the render pipeline (C2, C3, C7, C8)
-/

/-- C3: in every successful render, every deferred label text draw call
appears strictly after every bar rectangle draw call in the painter's
call trace, for every series list and label configuration. -/
theorem labels_drawn_after_rects (env : RenderEnv) (sl : List GoSeries)
    (out : RenderOutput) (hr : render env sl = Except.ok out)
    (i j : Nat) (b : ChartBox) (str : String) (x y : Int)
    (hi : out.events[i]? = some (DrawEvent.rect b))
    (hj : out.events[j]? = some (DrawEvent.text str x y)) : i < j := by
  obtain ⟨hev, -⟩ := render_ok_fields env sl out hr
  rw [hev] at hi hj
  exact append_rect_before_text _ _
    (fun str2 x2 y2 => seriesLoop_no_text env _ _ _ sl 0 str2 x2 y2)
    (fun b2 => labelFlush_no_rect _ b2) i j b str x y hi hj

/-- Witness for C3: in the concrete one-series render, the rectangle is
at trace position 1 and the label text at position 3. -/
theorem labels_drawn_after_rects_w : (1 : Nat) < 3 :=
  labels_drawn_after_rects wEnv wSl (getOk (render wEnv wSl)) rfl 1 3
    ⟨70, 10, 90, 99⟩ "v" 50 65 (by rfl) (by rfl)

/-- C2: for every data item drawn at series position `i` and category
`j`, the point recorded for the mark-point overlay is the bar's
top-center — the drawn rectangle's left edge plus `barWidth >> 1`, at the
rectangle's top — whatever `barWidth` the layout produced. -/
theorem markpoint_is_top_center (env : RenderEnv) (sl : List GoSeries)
    (out : RenderOutput) (hr : render env sl = Except.ok out)
    (i j : Nat) (s : GoSeries) (item : ChartItem)
    (hs : sl[i]? = some s) (hitem : s.data[j]? = some item)
    (hj : j < env.divideCount) :
    ∃ pts, out.markPoints[i]? = some pts ∧
      pts[j]? = some
        { x := (barRect env
                  (barXPos env (marginOf env.width) (barWidthOf env.width sl.length)
                    (barMarginOf env.width) i j)
                  (barWidthOf env.width sl.length)
                  (env.getHeight s.axisIndex item.value)).left +
                Int.fdiv (barWidthOf env.width sl.length) 2,
          y := (barRect env
                  (barXPos env (marginOf env.width) (barWidthOf env.width sl.length)
                    (barMarginOf env.width) i j)
                  (barWidthOf env.width sl.length)
                  (env.getHeight s.axisIndex item.value)).top } := by
  obtain ⟨-, hmp⟩ := render_ok_fields env sl out hr
  refine ⟨(itemLoop env (marginOf env.width) (barWidthOf env.width sl.length)
      (barMarginOf env.width) (0 + i) s 0 s.data
      (List.replicate s.data.length { x := 0, y := 0 })).1, ?_, ?_⟩
  · rw [hmp]
    exact seriesLoop_markPoints env _ _ _ sl 0 i s hs
  · have hget := itemLoop_get env (marginOf env.width)
      (barWidthOf env.width sl.length) (barMarginOf env.width) (0 + i) s
      s.data 0 (List.replicate s.data.length { x := 0, y := 0 }) j item
      (by simp) hitem (by omega)
    simp only [Nat.zero_add] at hget
    simpa [barPoint, barRect] using hget

/-- Witness for C2 at the concrete one-series render. -/
theorem markpoint_is_top_center_w :
    render wEnv wSl = Except.ok (getOk (render wEnv wSl)) ∧
    wSl[0]? = some wSeries ∧
    wSeries.data[0]? = some ⟨10, ⟨true, 0⟩⟩ ∧
    0 < wEnv.divideCount ∧
    (∃ pts, (getOk (render wEnv wSl)).markPoints[0]? = some pts ∧
      pts[0]? = some
        { x := (barRect wEnv
                  (barXPos wEnv (marginOf wEnv.width) (barWidthOf wEnv.width wSl.length)
                    (barMarginOf wEnv.width) 0 0)
                  (barWidthOf wEnv.width wSl.length)
                  (wEnv.getHeight wSeries.axisIndex (10 : Int))).left +
                Int.fdiv (barWidthOf wEnv.width wSl.length) 2,
          y := (barRect wEnv
                  (barXPos wEnv (marginOf wEnv.width) (barWidthOf wEnv.width wSl.length)
                    (barMarginOf wEnv.width) 0 0)
                  (barWidthOf wEnv.width wSl.length)
                  (wEnv.getHeight wSeries.axisIndex (10 : Int))).top }) :=
  ⟨rfl, rfl, rfl, by decide,
    markpoint_is_top_center wEnv wSl (getOk (render wEnv wSl)) rfl 0 0 wSeries
      ⟨10, ⟨true, 0⟩⟩ rfl rfl (by decide)⟩

/-- Counterexample for C7: with an empty series list, `render` fails by
an integer-divide-by-zero panic even though no overlay painter failed, so
the layout is not total over all input series lists. -/
theorem render_empty_list_panics :
    wEnv.overlayErr = none ∧
      render wEnv [] = Except.error GoPanic.divideByZero :=
  ⟨rfl, rfl⟩

/-- C7 (amended): for every *non-empty* series list, the bar-chart
render fails if and only if an overlay painter fails: the result's error
is exactly the overlay outcome, and on an overlay error the zero box is
returned instead of the plot box. -/
theorem render_err_iff_overlay (env : RenderEnv) (sl : List GoSeries)
    (h : sl ≠ []) :
    render env sl = Except.ok (getOk (render env sl)) ∧
    (getOk (render env sl)).err = env.overlayErr ∧
    (getOk (render env sl)).box =
      (if env.overlayErr.isSome then BoxZero else env.pbox) := by
  have hlen : ¬ sl.length = 0 := by simpa using h
  unfold render getOk
  rw [if_neg hlen]
  rcases env.overlayErr with _ | e <;> simp

/-- Witness for C7 at the concrete one-series render (no overlay error). -/
theorem render_err_iff_overlay_w :
    wSl ≠ [] ∧
    (render wEnv wSl = Except.ok (getOk (render wEnv wSl)) ∧
      (getOk (render wEnv wSl)).err = wEnv.overlayErr ∧
      (getOk (render wEnv wSl)).box =
        (if wEnv.overlayErr.isSome then BoxZero else wEnv.pbox)) :=
  ⟨by simp [wSl], render_err_iff_overlay wEnv wSl (by simp [wSl])⟩

/-- C8: for every series, the points slice registered with the
mark-point overlay has one entry per data item, and the entries at
category indices at or beyond the category count stay the zero point
`{0, 0}` (those items are skipped without drawing). -/
theorem markpoints_full_length_zero_tail (env : RenderEnv) (sl : List GoSeries)
    (out : RenderOutput) (hr : render env sl = Except.ok out)
    (i : Nat) (s : GoSeries) (hs : sl[i]? = some s)
    (_hlong : env.divideCount < s.data.length) :
    ∃ pts, out.markPoints[i]? = some pts ∧ pts.length = s.data.length ∧
      ∀ k, env.divideCount ≤ k → k < pts.length →
        pts[k]? = some { x := 0, y := 0 } := by
  obtain ⟨-, hmp⟩ := render_ok_fields env sl out hr
  refine ⟨(itemLoop env (marginOf env.width) (barWidthOf env.width sl.length)
      (barMarginOf env.width) (0 + i) s 0 s.data
      (List.replicate s.data.length { x := 0, y := 0 })).1, ?_, ?_, ?_⟩
  · rw [hmp]
    exact seriesLoop_markPoints env _ _ _ sl 0 i s hs
  · rw [itemLoop_length]
    simp
  · intro k hk hklen
    rw [itemLoop_stable env _ _ _ (0 + i) s s.data 0 _ k (Or.inr hk)]
    rw [itemLoop_length] at hklen
    simp only [List.length_replicate] at hklen
    simp [List.getElem?_replicate, hklen]

/-- Witness for C8: the concrete two-item series over one category. -/
theorem markpoints_full_length_zero_tail_w :
    render wEnv wSl2 = Except.ok (getOk (render wEnv wSl2)) ∧
    wSl2[0]? = some wSeries2 ∧
    wEnv.divideCount < wSeries2.data.length ∧
    (∃ pts, (getOk (render wEnv wSl2)).markPoints[0]? = some pts ∧
      pts.length = wSeries2.data.length ∧
      ∀ k, wEnv.divideCount ≤ k → k < pts.length →
        pts[k]? = some { x := 0, y := 0 }) :=
  ⟨rfl, rfl, by decide,
    markpoints_full_length_zero_tail wEnv wSl2 (getOk (render wEnv wSl2)) rfl 0
      wSeries2 rfl (by decide)⟩
